import Mathlib

/-!
# Car-Rentals: authentication form script (`script.js`)

A shallow embedding of the validation logic of `script.js` and the properties
of it that the specification states.

Conventions of the embedding

* A JavaScript string is the list of its UTF-16 code units (`JSString`); the
  regular expressions of the script carry no `u` flag, so they also work on
  code units, and `length` counts code units.
* A regular-expression literal is translated into a term of `Regex`; `test`
  is decided by Brzozowski derivatives.  None of the literals of the script
  has a capture, a back-reference or a look-around, so the boolean result of
  `test` is membership in the language of the expression.
* DOM elements are records holding the properties the script reads and
  writes; a function that mutates the DOM returns the new record.  The markup
  is taken to provide what the script dereferences without a check (the
  `.input-group` ancestor, its `.error-message` child, the label of a field).
* Callbacks handed to `setTimeout` run after the call that schedules them has
  returned; they are not part of the step a function describes.
-/

namespace CarRentals

/-! ## Strings -/

/-- A JavaScript string, as the list of its UTF-16 code units. -/
abbrev JSString := List Nat

/-- UTF-16 encoding of one Unicode scalar value. -/
def utf16 (c : Char) : List Nat :=
  if c.toNat < 65536 then [c.toNat]
  else [55296 + (c.toNat - 65536) / 1024, 56320 + (c.toNat - 65536) % 1024]

/-- The JavaScript string written as the given literal. -/
def js (s : String) : JSString :=
  (s.toList.map utf16).flatten

/-- ECMAScript `WhiteSpace` and `LineTerminator` code units: the class `\s` of
a regular expression and the characters `String.prototype.trim` strips. -/
def isSpace (c : Nat) : Bool :=
  c == 9 || c == 10 || c == 11 || c == 12 || c == 13 || c == 32 || c == 160 ||
  c == 5760 || (8192 ≤ c && c ≤ 8202) || c == 8232 || c == 8233 || c == 8239 ||
  c == 8287 || c == 12288 || c == 65279

/-- JavaScript `s.trim()`. -/
def trim (s : JSString) : JSString :=
  ((s.dropWhile isSpace).reverse.dropWhile isSpace).reverse

/-- JavaScript truthiness of a string: the empty string is falsy. -/
def truthy (s : JSString) : Bool :=
  !s.isEmpty

/-! ## Regular expressions -/

/-- Regular expressions over code units; a character class is the predicate
of the code units it contains. -/
inductive Regex where
  | never : Regex
  | eps : Regex
  | cls : (Nat → Bool) → Regex
  | seq : Regex → Regex → Regex
  | alt : Regex → Regex → Regex
  | star : Regex → Regex

namespace Regex

/-- Whether the expression matches the empty string. -/
def nullable : Regex → Bool
  | never => false
  | eps => true
  | cls _ => false
  | seq a b => a.nullable && b.nullable
  | alt a b => a.nullable || b.nullable
  | star _ => true

/-- Brzozowski derivative with respect to one code unit. -/
def deriv : Regex → Nat → Regex
  | never, _ => never
  | eps, _ => never
  | cls p, c => if p c then eps else never
  | seq a b, c =>
    if a.nullable then alt (seq (a.deriv c) b) (b.deriv c) else seq (a.deriv c) b
  | alt a b, c => alt (a.deriv c) (b.deriv c)
  | star a, c => seq (a.deriv c) (star a)

/-- Whether the whole input is matched: `/^r$/.test(s)`. -/
def fullMatch (r : Regex) : JSString → Bool
  | [] => r.nullable
  | c :: cs => fullMatch (r.deriv c) cs

/-- The quantifier `r+`. -/
def plus (r : Regex) : Regex :=
  seq r (star r)

/-- The quantifier `r?`. -/
def opt (r : Regex) : Regex :=
  alt r eps

/-- The quantifier `r{0,n}`. -/
def upTo (r : Regex) : Nat → Regex
  | 0 => eps
  | n + 1 => opt (seq r (upTo r n))

/-- Any code unit. -/
def anyUnit : Regex :=
  cls (fun _ => true)

/-- Whether some substring of the input is matched: `/r/.test(s)` for an
expression with no anchor. -/
def search (r : Regex) (s : JSString) : Bool :=
  fullMatch (seq (star anyUnit) (seq r (star anyUnit))) s

end Regex

/-! ## `validators` -/

/-- The class `[^\s@]`. -/
def notSpaceAt (c : Nat) : Bool :=
  !(isSpace c || c == 64)

/-- The class `[A-Z]`. -/
def isUpper (c : Nat) : Bool :=
  65 ≤ c && c ≤ 90

/-- The class `[a-z]`. -/
def isLower (c : Nat) : Bool :=
  97 ≤ c && c ≤ 122

/-- The class `\d`. -/
def isDigit (c : Nat) : Bool :=
  48 ≤ c && c ≤ 57

/-- The class `[1-9]`. -/
def isDigit19 (c : Nat) : Bool :=
  49 ≤ c && c ≤ 57

/-- The class `[!@#$%^&*(),.?":{}|<>]`, in the order of the source. -/
def isSpecial (c : Nat) : Bool :=
  [33, 64, 35, 36, 37, 94, 38, 42, 40, 41, 44, 46, 63, 34, 58, 123, 125, 124, 60, 62].contains c

/-- The class `[a-zA-Z\s]`. -/
def isLetterOrSpace (c : Nat) : Bool :=
  isLower c || isUpper c || isSpace c

/-- The literal `/^[^\s@]+@[^\s@]+\.[^\s@]+$/`, without its anchors. -/
def emailRe : Regex :=
  .seq (.plus (.cls notSpaceAt))
    (.seq (.cls (· == 64))
      (.seq (.plus (.cls notSpaceAt))
        (.seq (.cls (· == 46)) (.plus (.cls notSpaceAt)))))

/-- The literal `/^[\+]?[1-9][\d]{0,15}$/`, without its anchors. -/
def phoneRe : Regex :=
  .seq (.opt (.cls (· == 43))) (.seq (.cls isDigit19) (.upTo (.cls isDigit) 15))

/-- The literal `/^[a-zA-Z\s]*$/`, without its anchors. -/
def nameRe : Regex :=
  .star (.cls isLetterOrSpace)

/-- The object `validators.password` returns. -/
structure PasswordChecks where
  length : Bool
  uppercase : Bool
  lowercase : Bool
  number : Bool
  special : Bool
  deriving DecidableEq

/-- `Object.values(checks)`, in the order the properties are created. -/
def PasswordChecks.values (c : PasswordChecks) : List Bool :=
  [c.length, c.uppercase, c.lowercase, c.number, c.special]

/-- `Object.values(checks).filter(Boolean).length`. -/
def PasswordChecks.passed (c : PasswordChecks) : Nat :=
  (c.values.filter id).length

namespace validators

/-- `validators.email`. -/
def email (email : JSString) : Bool :=
  emailRe.fullMatch email

/-- `validators.password`. -/
def password (password : JSString) : PasswordChecks :=
  { length := decide (password.length ≥ 8)
    uppercase := (Regex.cls isUpper).search password
    lowercase := (Regex.cls isLower).search password
    number := (Regex.cls isDigit).search password
    special := (Regex.cls isSpecial).search password }

/-- `validators.phone`; `phone.replace(/\s/g, '')` drops every whitespace
code unit. -/
def phone (phone : JSString) : Bool :=
  phoneRe.fullMatch (phone.filter (fun c => !isSpace c))

/-- `validators.name`. -/
def name (name : JSString) : Bool :=
  decide ((trim name).length ≥ 2) && nameRe.fullMatch name

end validators

/-! ## The field validation dispatcher -/

/-- Keys of the `validators` object. -/
inductive ValidatorName where
  | email
  | password
  | phone
  | name
  deriving DecidableEq

/-- The key as interpolated into a message. -/
def ValidatorName.text : ValidatorName → JSString
  | .email => js "email"
  | .password => js "password"
  | .phone => js "phone"
  | .name => js "name"

/-- An `<input>` element with the elements `validateField` reaches from it:
`label` is `input.labels[0].textContent`, `groupClasses` the class list of
`input.closest('.input-group')`, `errorText` and `errorClasses` the text and
the class list of the `.error-message` element of that group. -/
structure Field where
  value : JSString
  required : Bool
  label : JSString
  groupClasses : List String
  errorText : JSString
  errorClasses : List String
  deriving DecidableEq

/-- `classList.add(token)`. -/
def classAdd (l : List String) (token : String) : List String :=
  if token ∈ l then l else l ++ [token]

/-- `classList.remove(token)`. -/
def classRemove (l : List String) (token : String) : List String :=
  l.filter (fun t => t != token)

/-- `classList.toggle(token, force)`. -/
def classToggle (l : List String) (token : String) (force : Bool) : List String :=
  if force then classAdd l token else classRemove l token

/-- `validateField(input, validatorName, customMessage)`: the field after the
call and the value returned.  `validatorName` is `none` for `null` and for a
name that is no key of `validators`; `customMessage` is `none` when the
argument is left out. -/
def validateField (input : Field) (validatorName : Option ValidatorName)
    (customMessage : Option JSString) : Field × Bool :=
  let value := trim input.value
  let fallback (v : ValidatorName) : JSString :=
    match customMessage with
    | some m => if truthy m then m else js "Please enter a valid " ++ v.text
    | none => js "Please enter a valid " ++ v.text
  let verdict : Bool × JSString :=
    if !truthy value && input.required then
      (false, input.label ++ js " is required")
    else if truthy value then
      match validatorName with
      | none => (true, [])
      | some .password =>
        if (validators.password value).passed < 3 then
          (false, js "Password must contain at least 8 characters with uppercase, lowercase, and numbers")
        else (true, [])
      | some .email =>
        if !validators.email value then (false, fallback .email) else (true, [])
      | some .phone =>
        if !validators.phone value then (false, fallback .phone) else (true, [])
      | some .name =>
        if !validators.name value then (false, fallback .name) else (true, [])
    else (true, [])
  let isValid := verdict.1
  let message := verdict.2
  let group := classToggle (classToggle input.groupClasses "error" (!isValid && truthy value))
    "success" (isValid && truthy value)
  let shown : Field :=
    if !isValid && truthy value then
      { input with groupClasses := group, errorText := message,
                   errorClasses := classAdd input.errorClasses "show" }
    else
      { input with groupClasses := group,
                   errorClasses := classRemove input.errorClasses "show" }
  (shown, isValid || !truthy value)

/-! ## The password strength indicator -/

/-- The `.password-strength` element: its class list and the text of its
`.strength-text` child. -/
structure StrengthContainer where
  classes : List String
  text : JSString
  deriving DecidableEq

/-- The four tier classes `updatePasswordStrength` sets. -/
def isTierClass (t : String) : Bool :=
  t == "strength-weak" || t == "strength-fair" || t == "strength-good" || t == "strength-strong"

/-- `updatePasswordStrength(password)` on a document whose
`.password-strength` element is `container` (`none` when there is none). -/
def updatePasswordStrength (container : Option StrengthContainer) (password : JSString) :
    Option StrengthContainer :=
  match container with
  | none => none
  | some strengthContainer =>
    if !truthy password then
      some { classes := ["password-strength"], text := js "Password strength" }
    else
      let score := (validators.password password).passed
      let cleared := classRemove (classRemove (classRemove (classRemove strengthContainer.classes
        "strength-weak") "strength-fair") "strength-good") "strength-strong"
      if score ≤ 2 then
        some { classes := classAdd cleared "strength-weak", text := js "Weak password" }
      else if score = 3 then
        some { classes := classAdd cleared "strength-fair", text := js "Fair password" }
      else if score = 4 then
        some { classes := classAdd cleared "strength-good", text := js "Good password" }
      else
        some { classes := classAdd cleared "strength-strong", text := js "Strong password" }

/-! ## Notifications -/

/-- A `.notification` element: the message interpolated into its content and
the `type` interpolated into its class name `notification notification-type`. -/
structure Notification where
  message : JSString
  type : JSString
  deriving DecidableEq

/-- The part of the document `showNotification` works on: the `.notification`
elements in document order, and whether a `style[data-notifications]` element
is in the head. -/
structure Page where
  notifications : List Notification
  styleInstalled : Bool
  deriving DecidableEq

/-- `showNotification(message, type)`: `querySelector` finds the first
`.notification` element, which is removed; the new element is appended to the
body. -/
def showNotification (message type : JSString) (page : Page) : Page :=
  let remaining :=
    match page.notifications with
    | [] => []
    | _ :: rest => rest
  { notifications := remaining ++ [{ message := message, type := type }],
    styleInstalled := true }

/-- `showSuccess(message)`. -/
def showSuccess (message : JSString) (page : Page) : Page :=
  showNotification message (js "success") page

/-- `showError(message)`. -/
def showError (message : JSString) (page : Page) : Page :=
  showNotification message (js "error") page

/-! ## The sign-up form -/

/-- `validateConfirmPassword()`, a closure over `passwordInput` and
`confirmPasswordInput`: the confirm field after the call and the value
returned. -/
def validateConfirmPassword (passwordInput confirmPasswordInput : Field) : Field × Bool :=
  let password := passwordInput.value
  let confirmPassword := confirmPasswordInput.value
  let isValid := decide (password = confirmPassword)
  let group := classToggle (classToggle confirmPasswordInput.groupClasses "error"
    (!isValid && truthy confirmPassword)) "success" (isValid && truthy confirmPassword)
  let shown : Field :=
    if !isValid && truthy confirmPassword then
      { confirmPasswordInput with groupClasses := group, errorText := js "Passwords do not match",
                                  errorClasses := classAdd confirmPasswordInput.errorClasses "show" }
    else
      { confirmPasswordInput with groupClasses := group,
                                  errorClasses := classRemove confirmPasswordInput.errorClasses "show" }
  (shown, isValid || !truthy confirmPassword)

/-- The sign-up form with the page it is on. -/
structure SignUpForm where
  firstNameInput : Field
  lastNameInput : Field
  emailInput : Field
  phoneInput : Field
  passwordInput : Field
  confirmPasswordInput : Field
  termsChecked : Bool
  page : Page
  deriving DecidableEq

/-- The submit handler of the sign-up form, up to the simulated API call: the
form after the validation, and whether the handler goes on to the simulated
submission (`true`) or returns before it (`false`). -/
def signUpSubmit (form : SignUpForm) : SignUpForm × Bool :=
  let firstName := validateField form.firstNameInput (some .name)
    (some (js "First name must be at least 2 characters"))
  let lastName := validateField form.lastNameInput (some .name)
    (some (js "Last name must be at least 2 characters"))
  let email := validateField form.emailInput (some .email)
    (some (js "Please enter a valid email address"))
  let phone := validateField form.phoneInput (some .phone)
    (some (js "Please enter a valid phone number"))
  let password := validateField form.passwordInput (some .password) none
  let confirm := validateConfirmPassword password.1 form.confirmPasswordInput
  let validated : SignUpForm :=
    { form with firstNameInput := firstName.1, lastNameInput := lastName.1,
                emailInput := email.1, phoneInput := phone.1,
                passwordInput := password.1, confirmPasswordInput := confirm.1 }
  if !form.termsChecked then
    ({ validated with
        page := showError (js "Please agree to the Terms of Service and Privacy Policy") form.page },
      false)
  else if !firstName.2 || !lastName.2 || !email.2 || !phone.2 || !password.2 || !confirm.2 then
    ({ validated with page := showError (js "Please fix the errors above") form.page }, false)
  else
    (validated, true)

/-! ## The sign-in form -/

/-- The sign-in form. -/
structure SignInForm where
  emailInput : Field
  passwordInput : Field
  deriving DecidableEq

/-- The submit handler of the sign-in form, up to the simulated API call: the
form after the validation, and whether the handler goes on to the simulated
submission. -/
def signInSubmit (form : SignInForm) : SignInForm × Bool :=
  let password := form.passwordInput.value
  let email := validateField form.emailInput (some .email)
    (some (js "Please enter a valid email address"))
  let passwordValid := decide (password.length ≥ 6)
  let passwordField :=
    if !passwordValid then
      (validateField form.passwordInput none
        (some (js "Password must be at least 6 characters"))).1
    else form.passwordInput
  ({ emailInput := email.1, passwordInput := passwordField },
    !(!email.2 || !passwordValid))

/-- A field of a freshly loaded page holding the given value: no state class
on its group, no message shown. -/
def freshField (value : JSString) (required : Bool) : Field :=
  { value := value, required := required, label := js "Field",
    groupClasses := ["input-group"], errorText := [], errorClasses := ["error-message"] }

/-- A sign-up form on a page with no notification, holding the given values
in required fields. -/
def freshSignUp (firstName lastName email phone password confirm : JSString)
    (terms : Bool) : SignUpForm :=
  { firstNameInput := freshField firstName true, lastNameInput := freshField lastName true,
    emailInput := freshField email true, phoneInput := freshField phone true,
    passwordInput := freshField password true, confirmPasswordInput := freshField confirm true,
    termsChecked := terms, page := { notifications := [], styleInstalled := false } }

/-- An indicator that currently shows the weak tier. -/
def weakIndicator : StrengthContainer :=
  { classes := ["password-strength", "strength-weak"], text := js "Weak password" }

/-! ## Matching by derivatives -/

namespace Regex

theorem fullMatch_never (s : JSString) : fullMatch never s = false := by
  induction s with
  | nil => rfl
  | cons c cs ih => simpa [fullMatch, deriv] using ih

theorem fullMatch_eps (s : JSString) : fullMatch eps s = true ↔ s = [] := by
  cases s with
  | nil => simp [fullMatch, nullable]
  | cons c cs => simp [fullMatch, deriv, fullMatch_never]

theorem fullMatch_cls (p : Nat → Bool) (s : JSString) :
    fullMatch (cls p) s = true ↔ ∃ c, s = [c] ∧ p c = true := by
  cases s with
  | nil => simp [fullMatch, nullable]
  | cons c cs =>
    by_cases h : p c = true
    · simp only [fullMatch, deriv, h, if_true, fullMatch_eps]
      constructor
      · intro hcs
        exact ⟨c, by rw [hcs], h⟩
      · rintro ⟨d, hd, _⟩
        exact (List.cons.inj hd).2
    · have h' : p c = false := by simpa using h
      constructor
      · intro hf
        simp [fullMatch, deriv, h', fullMatch_never] at hf
      · rintro ⟨d, hd, hp⟩
        exact absurd ((List.cons.inj hd).1 ▸ hp) h

theorem fullMatch_alt (a b : Regex) (s : JSString) :
    fullMatch (alt a b) s = (fullMatch a s || fullMatch b s) := by
  induction s generalizing a b with
  | nil => rfl
  | cons c cs ih => simp [fullMatch, deriv, ih]

theorem fullMatch_seq (a b : Regex) (s : JSString) :
    fullMatch (seq a b) s = true ↔
      ∃ t u, s = t ++ u ∧ fullMatch a t = true ∧ fullMatch b u = true := by
  induction s generalizing a with
  | nil =>
    constructor
    · intro h
      simp [fullMatch, nullable] at h
      exact ⟨[], [], rfl, by simpa [fullMatch] using h.1, by simpa [fullMatch] using h.2⟩
    · rintro ⟨t, u, htu, ha, hb⟩
      have ht : t = [] := (List.append_eq_nil.mp htu.symm).1
      have hu : u = [] := (List.append_eq_nil.mp htu.symm).2
      subst ht hu
      simp [fullMatch] at ha hb
      simp [fullMatch, nullable, ha, hb]
  | cons c cs ih =>
    have step : fullMatch (seq (a.deriv c) b) cs = true ↔
        ∃ t u, c :: cs = (c :: t) ++ u ∧ fullMatch a (c :: t) = true ∧ fullMatch b u = true := by
      rw [ih]
      simp [fullMatch]
    constructor
    · intro h
      by_cases hn : a.nullable = true
      · simp [fullMatch, deriv, hn, fullMatch_alt] at h
        rcases h with h | h
        · obtain ⟨t, u, htu, ha, hb⟩ := step.mp (by simpa [fullMatch] using h)
          exact ⟨c :: t, u, htu, ha, hb⟩
        · exact ⟨[], c :: cs, rfl, by simpa [fullMatch] using hn, by simpa [fullMatch] using h⟩
      · simp [fullMatch, deriv, hn] at h
        obtain ⟨t, u, htu, ha, hb⟩ := step.mp (by simpa [fullMatch] using h)
        exact ⟨c :: t, u, htu, ha, hb⟩
    · rintro ⟨t, u, htu, ha, hb⟩
      cases t with
      | nil =>
        have hn : a.nullable = true := by simpa [fullMatch] using ha
        have hu : u = c :: cs := by simpa using htu.symm
        subst hu
        simp [fullMatch, deriv, hn, fullMatch_alt]
        right
        simpa [fullMatch] using hb
      | cons d t =>
        have hd : c = d := by simp at htu; exact htu.1
        subst hd
        have h1 : fullMatch (seq (a.deriv c) b) cs = true := step.mpr ⟨t, u, htu, ha, hb⟩
        by_cases hn : a.nullable = true
        · simp [fullMatch, deriv, hn, fullMatch_alt]
          left
          exact h1
        · simpa [fullMatch, deriv, hn] using h1

theorem fullMatch_seq_cls (p : Nat → Bool) (b : Regex) (s : JSString) :
    fullMatch (seq (cls p) b) s = true ↔
      ∃ c u, s = c :: u ∧ p c = true ∧ fullMatch b u = true := by
  rw [fullMatch_seq]
  constructor
  · rintro ⟨t, u, htu, ha, hb⟩
    obtain ⟨c, hc, hp⟩ := (fullMatch_cls p t).mp ha
    subst hc
    exact ⟨c, u, by simpa using htu, hp, hb⟩
  · rintro ⟨c, u, hs, hp, hb⟩
    exact ⟨[c], u, by simpa using hs, (fullMatch_cls p [c]).mpr ⟨c, rfl, hp⟩, hb⟩

theorem fullMatch_star_cls (p : Nat → Bool) (s : JSString) :
    fullMatch (star (cls p)) s = true ↔ ∀ c ∈ s, p c = true := by
  induction s with
  | nil => simp [fullMatch, nullable]
  | cons c cs ih =>
    have h : fullMatch (star (cls p)) (c :: cs) = fullMatch (seq (cls p) (star (cls p))) (c :: cs) := by
      simp [fullMatch, deriv, nullable]
    rw [h, fullMatch_seq_cls]
    constructor
    · rintro ⟨d, u, hs, hp, hb⟩
      simp at hs
      obtain ⟨h1, h2⟩ := hs
      subst h1 h2
      simpa [hp] using ih.mp hb
    · intro hall
      exact ⟨c, cs, rfl, hall c (by simp), ih.mpr (fun d hd => hall d (by simp [hd]))⟩

theorem fullMatch_plus_cls (p : Nat → Bool) (s : JSString) :
    fullMatch (plus (cls p)) s = true ↔ s ≠ [] ∧ ∀ c ∈ s, p c = true := by
  unfold plus
  rw [fullMatch_seq_cls]
  constructor
  · rintro ⟨c, u, hs, hp, hb⟩
    subst hs
    refine ⟨by simp, ?_⟩
    simpa [hp] using (fullMatch_star_cls p u).mp hb
  · rintro ⟨hne, hall⟩
    cases s with
    | nil => exact absurd rfl hne
    | cons c cs =>
      exact ⟨c, cs, rfl, hall c (by simp),
        (fullMatch_star_cls p cs).mpr (fun d hd => hall d (by simp [hd]))⟩

theorem fullMatch_upTo_cls (p : Nat → Bool) (n : Nat) (s : JSString) :
    fullMatch (upTo (cls p) n) s = true ↔ s.length ≤ n ∧ ∀ c ∈ s, p c = true := by
  induction n generalizing s with
  | zero =>
    rw [upTo, fullMatch_eps]
    constructor
    · intro h
      subst h
      simp
    · intro h
      exact List.length_eq_zero.mp (Nat.le_zero.mp h.1)
  | succ n ih =>
    rw [upTo, opt, fullMatch_alt, Bool.or_eq_true, fullMatch_seq_cls, fullMatch_eps]
    constructor
    · rintro (⟨c, u, hs, hp, hb⟩ | h)
      · subst hs
        obtain ⟨hl, hall⟩ := (ih u).mp hb
        refine ⟨by simpa using hl, ?_⟩
        simpa [hp] using hall
      · subst h
        simp
    · rintro ⟨hl, hall⟩
      cases s with
      | nil => exact Or.inr rfl
      | cons c cs =>
        left
        exact ⟨c, cs, rfl, hall c (by simp),
          (ih cs).mpr ⟨by simpa using hl, fun d hd => hall d (by simp [hd])⟩⟩

theorem search_cls (p : Nat → Bool) (s : JSString) :
    search (cls p) s = s.any p := by
  rw [Bool.eq_iff_iff]
  unfold search anyUnit
  rw [fullMatch_seq, List.any_eq_true]
  constructor
  · rintro ⟨t, u, hs, _, hb⟩
    obtain ⟨c, v, hu, hp, _⟩ := (fullMatch_seq_cls p _ u).mp hb
    subst hs hu
    exact ⟨c, by simp, hp⟩
  · rintro ⟨c, hc, hp⟩
    obtain ⟨t, v, hs⟩ := List.append_of_mem hc
    refine ⟨t, c :: v, hs, (fullMatch_star_cls _ t).mpr (fun _ _ => rfl), ?_⟩
    exact (fullMatch_seq_cls p _ _).mpr ⟨c, v, rfl, hp, (fullMatch_star_cls _ v).mpr (fun _ _ => rfl)⟩

end Regex

/-! ## The validators -/

/-- Shape of the strings the e-mail expression matches. -/
theorem email_shape (s : JSString) :
    validators.email s = true ↔
      ∃ l d t, s = l ++ 64 :: (d ++ 46 :: t) ∧
        (l ≠ [] ∧ ∀ c ∈ l, notSpaceAt c = true) ∧
        (d ≠ [] ∧ ∀ c ∈ d, notSpaceAt c = true) ∧
        (t ≠ [] ∧ ∀ c ∈ t, notSpaceAt c = true) := by
  unfold validators.email emailRe
  rw [Regex.fullMatch_seq]
  constructor
  · rintro ⟨l, u, hs, hl, hu⟩
    obtain ⟨a, v, hu', ha, hv⟩ := (Regex.fullMatch_seq_cls _ _ u).mp hu
    obtain ⟨d, w, hv', hd, hw⟩ := (Regex.fullMatch_seq _ _ v).mp hv
    obtain ⟨b, t, hw', hb, ht⟩ := (Regex.fullMatch_seq_cls _ _ w).mp hw
    have ha' : a = 64 := by simpa using ha
    have hb' : b = 46 := by simpa using hb
    subst hs hu' hv' hw' ha' hb'
    exact ⟨l, d, t, rfl, (Regex.fullMatch_plus_cls _ l).mp hl,
      (Regex.fullMatch_plus_cls _ d).mp hd, (Regex.fullMatch_plus_cls _ t).mp ht⟩
  · rintro ⟨l, d, t, hs, hl, hd, ht⟩
    refine ⟨l, 64 :: (d ++ 46 :: t), hs, (Regex.fullMatch_plus_cls _ l).mpr hl, ?_⟩
    refine (Regex.fullMatch_seq_cls _ _ _).mpr ⟨64, d ++ 46 :: t, rfl, by simp, ?_⟩
    refine (Regex.fullMatch_seq _ _ _).mpr ⟨d, 46 :: t, rfl, (Regex.fullMatch_plus_cls _ d).mpr hd, ?_⟩
    exact (Regex.fullMatch_seq_cls _ _ _).mpr ⟨46, t, rfl, by simp, (Regex.fullMatch_plus_cls _ t).mpr ht⟩

theorem notSpaceAt_iff (c : Nat) : notSpaceAt c = true ↔ isSpace c = false ∧ c ≠ 64 := by
  simp [notSpaceAt]

/-- C1, as the claim states it, fails: `"@b.c"` has exactly one `@`, a `.`
after it and no whitespace, and `validators.email` rejects it. -/
theorem validators_email_claim_fails :
    validators.email (js "@b.c") = false ∧
      (js "@b.c").count 64 = 1 ∧
      (∃ l r, js "@b.c" = l ++ 64 :: r ∧ 46 ∈ r) ∧
      ∀ c ∈ js "@b.c", isSpace c = false := by
  refine ⟨by decide, by decide, ⟨[], js "b.c", by decide, by decide⟩, by decide⟩

/-- C1 (amended): `validators.email s` is true if and only if `s` contains
exactly one `@`, contains no whitespace character, and has a `.` after the `@`
with at least one character before the `@`, at least one between the `@` and
that `.`, and at least one after that `.`. -/
theorem validators_email_iff (s : JSString) :
    validators.email s = true ↔
      s.count 64 = 1 ∧ (∀ c ∈ s, isSpace c = false) ∧
        ∃ l d t, s = l ++ 64 :: (d ++ 46 :: t) ∧ l ≠ [] ∧ d ≠ [] ∧ t ≠ [] := by
  rw [email_shape]
  constructor
  · rintro ⟨l, d, t, hs, ⟨hl, hl'⟩, ⟨hd, hd'⟩, ⟨ht, ht'⟩⟩
    have cl : l.count 64 = 0 :=
      List.count_eq_zero.mpr (fun h => ((notSpaceAt_iff 64).mp (hl' 64 h)).2 rfl)
    have cd : d.count 64 = 0 :=
      List.count_eq_zero.mpr (fun h => ((notSpaceAt_iff 64).mp (hd' 64 h)).2 rfl)
    have ct : t.count 64 = 0 :=
      List.count_eq_zero.mpr (fun h => ((notSpaceAt_iff 64).mp (ht' 64 h)).2 rfl)
    refine ⟨?_, ?_, l, d, t, hs, hl, hd, ht⟩
    · subst hs
      simp [List.count_append, List.count_cons, cl, cd, ct]
    · subst hs
      intro c hc
      simp only [List.mem_append, List.mem_cons] at hc
      rcases hc with h | h | h | h | h
      · exact ((notSpaceAt_iff c).mp (hl' c h)).1
      · subst h
        decide
      · exact ((notSpaceAt_iff c).mp (hd' c h)).1
      · subst h
        decide
      · exact ((notSpaceAt_iff c).mp (ht' c h)).1
  · rintro ⟨hcount, hws, l, d, t, hs, hl, hd, ht⟩
    subst hs
    simp [List.count_append, List.count_cons] at hcount
    have part : ∀ u : JSString, u.count 64 = 0 → (∀ c ∈ u, c ∈ l ++ 64 :: (d ++ 46 :: t)) →
        ∀ c ∈ u, notSpaceAt c = true := by
      intro u hu hsub c hc
      refine (notSpaceAt_iff c).mpr ⟨hws c (hsub c hc), ?_⟩
      intro h64
      exact (List.count_eq_zero.mp hu) (h64 ▸ hc)
    refine ⟨l, d, t, rfl, ⟨hl, part l (by omega) (by intro c hc; simp [hc])⟩,
      ⟨hd, part d (by omega) (by intro c hc; simp [hc])⟩,
      ⟨ht, part t (by omega) (by intro c hc; simp [hc])⟩⟩

/-- C6: `validators.phone s` is true if and only if `s` with every whitespace
character removed is an optional `+`, one digit from 1 to 9 and then at most
15 further decimal digits; a string of whitespace only (the empty string
included) is rejected. -/
theorem validators_phone_iff (s : JSString) :
    (validators.phone s = true ↔
      ∃ d rest, (s.filter (fun c => !isSpace c) = d :: rest ∨
          s.filter (fun c => !isSpace c) = 43 :: d :: rest) ∧
        (49 ≤ d ∧ d ≤ 57) ∧ rest.length ≤ 15 ∧ ∀ c ∈ rest, 48 ≤ c ∧ c ≤ 57) ∧
    ((∀ c ∈ s, isSpace c = true) → validators.phone s = false) := by
  have main : ∀ u : JSString, phoneRe.fullMatch u = true ↔
      ∃ d rest, (u = d :: rest ∨ u = 43 :: d :: rest) ∧
        (49 ≤ d ∧ d ≤ 57) ∧ rest.length ≤ 15 ∧ ∀ c ∈ rest, 48 ≤ c ∧ c ≤ 57 := by
    intro u
    have tail : ∀ v : JSString, Regex.fullMatch (.seq (.cls isDigit19) (.upTo (.cls isDigit) 15)) v = true ↔
        ∃ d rest, v = d :: rest ∧ (49 ≤ d ∧ d ≤ 57) ∧ rest.length ≤ 15 ∧
          ∀ c ∈ rest, 48 ≤ c ∧ c ≤ 57 := by
      intro v
      rw [Regex.fullMatch_seq_cls]
      constructor
      · rintro ⟨d, rest, hv, hd, hr⟩
        obtain ⟨hlen, hall⟩ := (Regex.fullMatch_upTo_cls _ _ _).mp hr
        refine ⟨d, rest, hv, by simpa [isDigit19] using hd, hlen, ?_⟩
        intro c hc
        simpa [isDigit] using hall c hc
      · rintro ⟨d, rest, hv, hd, hlen, hall⟩
        refine ⟨d, rest, hv, by simpa [isDigit19] using hd, ?_⟩
        refine (Regex.fullMatch_upTo_cls _ _ _).mpr ⟨hlen, ?_⟩
        intro c hc
        simpa [isDigit] using hall c hc
    unfold phoneRe
    rw [Regex.fullMatch_seq]
    constructor
    · rintro ⟨t, v, hu, ht, hv⟩
      obtain ⟨d, rest, hv', hd, hlen, hall⟩ := (tail v).mp hv
      rw [Regex.opt, Regex.fullMatch_alt, Bool.or_eq_true, Regex.fullMatch_cls,
        Regex.fullMatch_eps] at ht
      rcases ht with ⟨c, hc, hplus⟩ | ht
      · have hc' : c = 43 := by simpa using hplus
        subst hc hc' hv' hu
        exact ⟨d, rest, Or.inr rfl, hd, hlen, hall⟩
      · subst ht hv' hu
        exact ⟨d, rest, Or.inl rfl, hd, hlen, hall⟩
    · rintro ⟨d, rest, hu | hu, hd, hlen, hall⟩
      · refine ⟨[], d :: rest, hu, by decide, (tail _).mpr ⟨d, rest, rfl, hd, hlen, hall⟩⟩
      · refine ⟨[43], d :: rest, hu, by decide, (tail _).mpr ⟨d, rest, rfl, hd, hlen, hall⟩⟩
  refine ⟨main _, ?_⟩
  intro hws
  have hnil : s.filter (fun c => !isSpace c) = [] := by
    rw [List.filter_eq_nil_iff]
    intro c hc
    simp [hws c hc]
  unfold validators.phone
  rw [hnil]
  decide

/-- C7: `validators.name s` is true if and only if `s` trimmed has length at
least 2 and every character of `s` is a letter (`A` to `Z`, `a` to `z`) or a
whitespace character. -/
theorem validators_name_iff (s : JSString) :
    validators.name s = true ↔
      2 ≤ (trim s).length ∧
        ∀ c ∈ s, (65 ≤ c ∧ c ≤ 90) ∨ (97 ≤ c ∧ c ≤ 122) ∨ isSpace c = true := by
  unfold validators.name nameRe
  rw [Bool.and_eq_true, Regex.fullMatch_star_cls, decide_eq_true_iff]
  constructor
  · rintro ⟨hlen, hall⟩
    refine ⟨hlen, ?_⟩
    intro c hc
    have := hall c hc
    simp only [isLetterOrSpace, isLower, isUpper, Bool.or_eq_true, Bool.and_eq_true,
      decide_eq_true_iff] at this
    tauto
  · rintro ⟨hlen, hall⟩
    refine ⟨hlen, ?_⟩
    intro c hc
    have := hall c hc
    simp only [isLetterOrSpace, isLower, isUpper, Bool.or_eq_true, Bool.and_eq_true,
      decide_eq_true_iff]
    tauto

/-! ## The dispatcher -/

/-- What `validateField` returns for the password validator. -/
theorem validateField_password_result (input : Field) (customMessage : Option JSString) :
    (validateField input (some .password) customMessage).2 =
      (decide (3 ≤ (validators.password (trim input.value)).passed) ||
        !truthy (trim input.value)) := by
  by_cases hv : truthy (trim input.value) = true
  · by_cases hc : (validators.password (trim input.value)).passed < 3
    · have : ¬ 3 ≤ (validators.password (trim input.value)).passed := by omega
      simp [validateField, hv, hc, this]
    · have : 3 ≤ (validators.password (trim input.value)).passed := by omega
      simp [validateField, hv, hc, this]
  · have hv' : truthy (trim input.value) = false := by simpa using hv
    cases hr : input.required <;> simp [validateField, hv', hr]

/-- When at least 3 of the five rules of `validators.password` hold of the
trimmed value of the field, `validateField` with the password validator
returns true; only the number of rules that hold is looked at. -/
theorem validateField_password_accepts (input : Field) (customMessage : Option JSString)
    (h : 3 ≤ (validators.password (trim input.value)).passed) :
    (validateField input (some .password) customMessage).2 = true := by
  rw [validateField_password_result]
  simp [h]

theorem validateField_password_accepts_witness :
    3 ≤ (validators.password (trim (freshField (js "Abcdef12") true).value)).passed ∧
      (validateField (freshField (js "Abcdef12") true) (some .password) none).2 = true :=
  ⟨by decide, validateField_password_accepts (freshField (js "Abcdef12") true) none (by decide)⟩

/-- C4: for a field whose trimmed value is empty, whatever the validator and
whether or not the field is required, `validateField` returns true, the group
does not carry the class `error` and the message element does not carry the
class `show`. -/
theorem validateField_empty (input : Field) (validatorName : Option ValidatorName)
    (customMessage : Option JSString) (h : trim input.value = []) :
    (validateField input validatorName customMessage).2 = true ∧
      "error" ∉ (validateField input validatorName customMessage).1.groupClasses ∧
      "show" ∉ (validateField input validatorName customMessage).1.errorClasses := by
  cases hr : input.required <;>
    simp [validateField, h, truthy, hr, classToggle, classRemove, List.mem_filter]

theorem validateField_empty_witness :
    trim (freshField (js "  ") true).value = [] ∧
      (validateField (freshField (js "  ") true) (some .email) none).2 = true ∧
      "error" ∉ (validateField (freshField (js "  ") true) (some .email) none).1.groupClasses ∧
      "show" ∉ (validateField (freshField (js "  ") true) (some .email) none).1.errorClasses :=
  ⟨by decide, validateField_empty (freshField (js "  ") true) (some .email) none (by decide)⟩

/-! ## The confirm-password check -/

/-- C5, as the claim states it, fails: with password `"abc"` and an empty
confirmation the two strings differ and `validateConfirmPassword` returns
true. -/
theorem validateConfirmPassword_claim_fails :
    (validateConfirmPassword (freshField (js "abc") true) (freshField (js "") true)).2 = true ∧
      (freshField (js "abc") true).value ≠ (freshField (js "") true).value := by
  constructor <;> decide

/-- C5 (amended): `validateConfirmPassword` returns true if and only if the
two raw strings are identical (case-sensitive, not trimmed) or the
confirmation is empty, whether or not the password passes the password
rules. -/
theorem validateConfirmPassword_iff (passwordInput confirmPasswordInput : Field) :
    (validateConfirmPassword passwordInput confirmPasswordInput).2 = true ↔
      passwordInput.value = confirmPasswordInput.value ∨ confirmPasswordInput.value = [] := by
  simp [validateConfirmPassword, truthy]

/-! ## The strength indicator -/

theorem passed_le_five (c : PasswordChecks) : c.passed ≤ 5 := by
  obtain ⟨a, b, d, e, f⟩ := c
  cases a <;> cases b <;> cases d <;> cases e <;> cases f <;> decide

theorem tier_after_add (l : List String) (t : String) (ht : isTierClass t = true) :
    (classAdd (classRemove (classRemove (classRemove (classRemove l
      "strength-weak") "strength-fair") "strength-good") "strength-strong") t).filter
      isTierClass = [t] := by
  have hnot : t ∉ classRemove (classRemove (classRemove (classRemove l
      "strength-weak") "strength-fair") "strength-good") "strength-strong" := by
    simp only [isTierClass, Bool.or_eq_true, beq_iff_eq] at ht
    simp only [classRemove, List.mem_filter, bne_iff_ne, ne_eq]
    rcases ht with ((h | h) | h) | h <;> subst h <;> simp
  have hnone : (classRemove (classRemove (classRemove (classRemove l
      "strength-weak") "strength-fair") "strength-good") "strength-strong").filter
      isTierClass = [] := by
    rw [List.filter_eq_nil_iff]
    intro x hx
    simp only [classRemove, List.mem_filter, bne_iff_ne, ne_eq] at hx
    simp only [isTierClass, Bool.or_eq_true, beq_iff_eq]
    tauto
  simp [classAdd, hnot, List.filter_append, hnone, ht]

/-- C3: with the indicator on the page, the empty password resets it (no tier
class, neutral text), and a non-empty password leaves exactly one tier class,
fixed by the number of password checks that hold: `strength-weak` for 0, 1
or 2, `strength-fair` for 3, `strength-good` for 4, `strength-strong` for 5. -/
theorem updatePasswordStrength_tier (box : StrengthContainer) (p : JSString) (hp : p ≠ []) :
    (∃ reset, updatePasswordStrength (some box) [] = some reset ∧
      reset.classes.filter isTierClass = [] ∧ reset.text = js "Password strength") ∧
    (validators.password p).passed ≤ 5 ∧
    ∃ shown, updatePasswordStrength (some box) p = some shown ∧
      shown.classes.filter isTierClass =
        [match (validators.password p).passed with
          | 0 | 1 | 2 => "strength-weak"
          | 3 => "strength-fair"
          | 4 => "strength-good"
          | _ => "strength-strong"] := by
  refine ⟨⟨_, rfl, by decide, rfl⟩, passed_le_five _, ?_⟩
  have hne : truthy p = true := by
    cases p with
    | nil => exact absurd rfl hp
    | cons c cs => rfl
  have h5 := passed_le_five (validators.password p)
  simp only [updatePasswordStrength, hne, Bool.not_true, Bool.false_eq_true, if_false]
  generalize (validators.password p).passed = n at h5
  have hn : n = 0 ∨ n = 1 ∨ n = 2 ∨ n = 3 ∨ n = 4 ∨ n = 5 := by omega
  rcases hn with h | h | h | h | h | h <;> subst h <;>
    simp [tier_after_add, isTierClass]

theorem updatePasswordStrength_tier_witness :
    js "Abcdef12" ≠ [] ∧
      ∃ shown, updatePasswordStrength (some weakIndicator) (js "Abcdef12") = some shown ∧
        shown.classes.filter isTierClass = ["strength-good"] := by
  refine ⟨by decide, ?_⟩
  obtain ⟨_, _, shown, hs, ht⟩ :=
    updatePasswordStrength_tier weakIndicator (js "Abcdef12") (by decide)
  have h4 : (validators.password (js "Abcdef12")).passed = 4 := by decide
  rw [h4] at ht
  exact ⟨shown, hs, ht⟩

/-! ## Notifications -/

/-- C8: on a page that shows at most one notification, a call of
`showNotification` leaves exactly one notification, with the message and the
type of that call; after two calls in a row the only notification is the one of
the second call. -/
theorem showNotification_single (page : Page) (m1 t1 m2 t2 : JSString)
    (h : page.notifications.length ≤ 1) :
    (showNotification m1 t1 page).notifications = [{ message := m1, type := t1 }] ∧
      (showNotification m2 t2 (showNotification m1 t1 page)).notifications =
        [{ message := m2, type := t2 }] := by
  obtain ⟨ns, st⟩ := page
  cases ns with
  | nil => simp [showNotification]
  | cons n rest =>
    have hrest : rest = [] := by
      apply List.length_eq_zero.mp
      simp only [List.length_cons] at h
      omega
    subst hrest
    simp [showNotification]

theorem showNotification_single_witness :
    (Page.mk [{ message := js "old", type := js "error" }] true).notifications.length ≤ 1 ∧
      (showNotification (js "first") (js "error")
        (Page.mk [{ message := js "old", type := js "error" }] true)).notifications =
        [{ message := js "first", type := js "error" }] ∧
      (showNotification (js "second") (js "success") (showNotification (js "first") (js "error")
        (Page.mk [{ message := js "old", type := js "error" }] true))).notifications =
        [{ message := js "second", type := js "success" }] :=
  ⟨by decide, showNotification_single (Page.mk [{ message := js "old", type := js "error" }] true)
    (js "first") (js "error") (js "second") (js "success") (by decide)⟩

/-! ## The password gate and the strength tiers -/

/-- C2 fails on the code: the raw password `"Ab      "` passes three rules
(length, uppercase, lowercase); `validateField` evaluates the trimmed value
`"Ab"` and returns false, while `updatePasswordStrength`, called on the same
input event with the raw value, rates the password fair. -/
theorem validateField_password_raw_fails :
    3 ≤ (validators.password (js "Ab      ")).passed ∧
      (validateField (freshField (js "Ab      ") true) (some .password) none).2 = false ∧
      ∃ shown, updatePasswordStrength (some weakIndicator) (js "Ab      ") = some shown ∧
        shown.classes.filter isTierClass = ["strength-fair"] ∧
        shown.text = js "Fair password" := by
  refine ⟨by decide, ?_, ?_⟩
  · rw [validateField_password_result]
    decide
  · have h3 : (validators.password (js "Ab      ")).passed = 3 := by decide
    have ht : truthy (js "Ab      ") = true := by decide
    refine ⟨_, by simp only [updatePasswordStrength, ht, h3]; rfl, ?_, rfl⟩
    exact tier_after_add weakIndicator.classes "strength-fair" (by decide)

/-- A blank password, the single space, is accepted by `validateField` with
the password validator in every field that holds it and is rated weak by
`updatePasswordStrength`. -/
theorem blank_password_accepted_and_weak :
    ∃ p : JSString,
      (∀ (required : Bool) (label : JSString) (groupClasses : List String) (errorText : JSString)
          (errorClasses : List String) (customMessage : Option JSString),
        (validateField
          { value := p, required := required, label := label, groupClasses := groupClasses,
            errorText := errorText, errorClasses := errorClasses }
          (some .password) customMessage).2 = true) ∧
      ∀ box : StrengthContainer, ∃ shown,
        updatePasswordStrength (some box) p = some shown ∧
          shown.classes.filter isTierClass = ["strength-weak"] ∧
          shown.text = js "Weak password" := by
  refine ⟨js " ", ?_, ?_⟩
  · intro required label groupClasses errorText errorClasses customMessage
    rw [validateField_password_result]
    show (decide (3 ≤ (validators.password (trim (js " "))).passed) ||
      !truthy (trim (js " "))) = true
    decide
  · intro box
    have h0 : (validators.password (js " ")).passed = 0 := by decide
    have ht : truthy (js " ") = true := by decide
    refine ⟨_, by simp only [updatePasswordStrength, ht, h0]; rfl, ?_, rfl⟩
    exact tier_after_add box.classes "strength-weak" (by decide)

theorem trim_sublist (s : JSString) : (trim s).Sublist s := by
  unfold trim
  have h1 : ((s.dropWhile isSpace).reverse.dropWhile isSpace).Sublist (s.dropWhile isSpace).reverse :=
    List.dropWhile_sublist _
  have h2 := List.reverse_sublist.mpr h1
  rw [List.reverse_reverse] at h2
  exact h2.trans (List.dropWhile_sublist _)

theorem passed_eq_sum (c : PasswordChecks) :
    c.passed = c.length.toNat + c.uppercase.toNat + c.lowercase.toNat + c.number.toNat +
      c.special.toNat := by
  obtain ⟨a, b, d, e, f⟩ := c
  cases a <;> cases b <;> cases d <;> cases e <;> cases f <;> rfl

theorem toNat_le_of_imp (a b : Bool) (h : a = true → b = true) : a.toNat ≤ b.toNat := by
  cases a <;> cases b <;> simp_all

/-- Trimming never raises the number of password checks that hold. -/
theorem passed_trim_le (p : JSString) :
    (validators.password (trim p)).passed ≤ (validators.password p).passed := by
  have hsub := trim_sublist p
  have hany : ∀ q : Nat → Bool, (trim p).any q = true → p.any q = true := by
    intro q hq
    rw [List.any_eq_true] at hq ⊢
    obtain ⟨c, hc, hqc⟩ := hq
    exact ⟨c, hsub.subset hc, hqc⟩
  rw [passed_eq_sum, passed_eq_sum]
  have h1 : (validators.password (trim p)).length.toNat ≤ (validators.password p).length.toNat := by
    apply toNat_le_of_imp
    simp only [validators.password, decide_eq_true_iff]
    intro h
    exact le_trans h hsub.length_le
  have h2 : (validators.password (trim p)).uppercase.toNat ≤
      (validators.password p).uppercase.toNat := by
    apply toNat_le_of_imp
    simp only [validators.password, Regex.search_cls]
    exact hany _
  have h3 : (validators.password (trim p)).lowercase.toNat ≤
      (validators.password p).lowercase.toNat := by
    apply toNat_le_of_imp
    simp only [validators.password, Regex.search_cls]
    exact hany _
  have h4 : (validators.password (trim p)).number.toNat ≤ (validators.password p).number.toNat := by
    apply toNat_le_of_imp
    simp only [validators.password, Regex.search_cls]
    exact hany _
  have h5 : (validators.password (trim p)).special.toNat ≤
      (validators.password p).special.toNat := by
    apply toNat_le_of_imp
    simp only [validators.password, Regex.search_cls]
    exact hany _
  omega

/-- A password that is not blank and that `validateField` accepts has at least
three checks that hold of the raw string. -/
theorem accepted_nonblank_score (input : Field) (customMessage : Option JSString)
    (hne : trim input.value ≠ [])
    (hacc : (validateField input (some .password) customMessage).2 = true) :
    3 ≤ (validators.password input.value).passed := by
  rw [validateField_password_result] at hacc
  have ht : truthy (trim input.value) = true := by
    cases h : trim input.value with
    | nil => exact absurd h hne
    | cons c cs => rfl
  simp [ht] at hacc
  exact le_trans hacc (passed_trim_le input.value)

/-- When `updatePasswordStrength` rates a password weak: the password is not
empty and at most two checks hold of it. -/
theorem rated_weak_iff (box : StrengthContainer) (p : JSString) :
    (∃ shown, updatePasswordStrength (some box) p = some shown ∧
        shown.classes.filter isTierClass = ["strength-weak"]) ↔
      p ≠ [] ∧ (validators.password p).passed ≤ 2 := by
  cases p with
  | nil =>
    constructor
    · rintro ⟨shown, hs, hw⟩
      have hreset : updatePasswordStrength (some box) [] =
          some { classes := ["password-strength"], text := js "Password strength" } := rfl
      rw [hreset] at hs
      cases hs
      exact absurd hw (by decide)
    · rintro ⟨hne, _⟩
      exact absurd rfl hne
  | cons c cs =>
    have ht : truthy (c :: cs) = true := rfl
    have h5 := passed_le_five (validators.password (c :: cs))
    simp only [updatePasswordStrength, ht, Bool.not_true, Bool.false_eq_true, if_false]
    generalize (validators.password (c :: cs)).passed = n at h5
    have hn : n = 0 ∨ n = 1 ∨ n = 2 ∨ n = 3 ∨ n = 4 ∨ n = 5 := by omega
    rcases hn with h | h | h | h | h | h <;> subst h <;>
      simp [tier_after_add, isTierClass]

theorem blank_all_space (p : JSString) (h : trim p = []) : ∀ c ∈ p, isSpace c = true := by
  unfold trim at h
  rw [List.reverse_eq_nil_iff, List.dropWhile_eq_nil_iff] at h
  cases hd : p.dropWhile isSpace with
  | nil => exact List.dropWhile_eq_nil_iff.mp hd
  | cons a l =>
    have hne : p.dropWhile isSpace ≠ [] := by
      rw [hd]
      exact List.cons_ne_nil a l
    have hnot := List.head_dropWhile_not isSpace p hne
    have ha : (p.dropWhile isSpace).head hne = a := by
      simp only [hd, List.head_cons]
    rw [ha] at hnot
    have hyes := h a (by rw [hd]; simp)
    rw [hnot] at hyes
    exact absurd hyes (by decide)

theorem space_in_no_class (c : Nat) (h : isSpace c = true) :
    isUpper c = false ∧ isLower c = false ∧ isDigit c = false ∧ isSpecial c = false := by
  simp only [isSpace, Bool.or_eq_true, beq_iff_eq, Bool.and_eq_true, decide_eq_true_iff] at h
  refine ⟨?_, ?_, ?_, ?_⟩
  · simp only [isUpper, Bool.and_eq_false_iff, decide_eq_false_iff_not]
    omega
  · simp only [isLower, Bool.and_eq_false_iff, decide_eq_false_iff_not]
    omega
  · simp only [isDigit, Bool.and_eq_false_iff, decide_eq_false_iff_not]
    omega
  · simp [isSpecial]
    omega

/-- At most one check, the length, holds of a password made of whitespace. -/
theorem blank_score (p : JSString) (h : ∀ c ∈ p, isSpace c = true) :
    (validators.password p).passed ≤ 1 := by
  have hany : ∀ q : Nat → Bool, (∀ c, isSpace c = true → q c = false) → p.any q = false := by
    intro q hq
    rw [List.any_eq_false]
    intro c hc
    simp [hq c (h c hc)]
  rw [passed_eq_sum]
  have h2 : (validators.password p).uppercase = false := by
    simp only [validators.password, Regex.search_cls]
    exact hany _ (fun c hc => (space_in_no_class c hc).1)
  have h3 : (validators.password p).lowercase = false := by
    simp only [validators.password, Regex.search_cls]
    exact hany _ (fun c hc => (space_in_no_class c hc).2.1)
  have h4 : (validators.password p).number = false := by
    simp only [validators.password, Regex.search_cls]
    exact hany _ (fun c hc => (space_in_no_class c hc).2.2.1)
  have h5 : (validators.password p).special = false := by
    simp only [validators.password, Regex.search_cls]
    exact hany _ (fun c hc => (space_in_no_class c hc).2.2.2)
  rw [h2, h3, h4, h5]
  cases (validators.password p).length <;> simp

/-- C9, read on the gate of the password branch (taken when the trimmed value
is not empty), fails: no field holds a password that reaches the gate, is
accepted by `validateField` and is rated weak by `updatePasswordStrength`. -/
theorem password_gate_not_looser :
    ¬ ∃ (input : Field) (customMessage : Option JSString) (box : StrengthContainer),
        trim input.value ≠ [] ∧
        (validateField input (some .password) customMessage).2 = true ∧
        ∃ shown, updatePasswordStrength (some box) input.value = some shown ∧
          shown.classes.filter isTierClass = ["strength-weak"] := by
  rintro ⟨input, customMessage, box, hne, hacc, hweak⟩
  have h3 := accepted_nonblank_score input customMessage hne hacc
  have h2 := ((rated_weak_iff box input.value).mp hweak).2
  omega

/-- C9 (amended): `validateField` with the password validator accepts the
password of a field and `updatePasswordStrength` rates the same password weak
if and only if the password is not empty and is made of whitespace only, so
that its trimmed value is empty; the single space is such a password. -/
theorem password_gate_weak_iff_blank (input : Field) (customMessage : Option JSString)
    (box : StrengthContainer) :
    (((validateField input (some .password) customMessage).2 = true ∧
        ∃ shown, updatePasswordStrength (some box) input.value = some shown ∧
          shown.classes.filter isTierClass = ["strength-weak"]) ↔
      (input.value ≠ [] ∧ trim input.value = [])) ∧
    (js " " ≠ [] ∧ trim (js " ") = []) := by
  refine ⟨?_, by decide, by decide⟩
  constructor
  · rintro ⟨hacc, hweak⟩
    obtain ⟨hne, h2⟩ := (rated_weak_iff box input.value).mp hweak
    refine ⟨hne, ?_⟩
    by_contra hblank
    have h3 := accepted_nonblank_score input customMessage hblank hacc
    omega
  · rintro ⟨hne, hblank⟩
    constructor
    · rw [validateField_password_result, hblank]
      simp [truthy]
    · apply (rated_weak_iff box input.value).mpr
      have h1 := blank_score input.value (blank_all_space input.value hblank)
      exact ⟨hne, by omega⟩

/-! ## The submit handlers -/

/-- C10 fails on the code: with the terms ticked, the sign-up handler goes on
to the simulated submission when the required first name is empty and the
other fields are valid, and also when every required field is empty; the
sign-in handler goes on when the required e-mail is empty and the password has
six characters. -/
theorem submit_proceeds_with_empty_required :
    (signUpSubmit (freshSignUp (js "") (js "Doe") (js "a@b.c") (js "1234567")
        (js "Abcdef12") (js "Abcdef12") true)).2 = true ∧
      (signUpSubmit (freshSignUp (js "") (js "") (js "") (js "") (js "") (js "") true)).2 = true ∧
      (signInSubmit { emailInput := freshField (js "") true,
                      passwordInput := freshField (js "abcdef") true }).2 = true := by
  refine ⟨by decide, by decide, by decide⟩

/-! ## The scenarios of the specification -/

theorem scenario_email_password :
    validators.email (js "a@b.c") = true ∧ (validators.password (js "Abcdef12")).passed = 4 := by
  constructor <;> decide

theorem scenario_phone : validators.phone (js " +1 234 567") = true := by
  decide

theorem scenario_name : validators.name (js "A1") = false := by
  decide

end CarRentals
